import Mathlib

/-!
Verification of the iterative polygon inset engine of `vectorizer.py`.

The program wraps the external geometry library (shapely) around a small
iteration core:

* `shapely_to_svgpathtools(geometry)` converts a shapely `Polygon` or
  `LineString` into an svgpathtools path made of straight `Line` segments
  (only the exterior ring of a polygon is used); any other geometry kind
  yields `None`.
* `inset_polygon(polygon, offset)` returns `None` when the input is invalid
  or empty, otherwise computes `polygon.buffer(-offset)` and returns it
  unless it is empty or has non-positive area.
* `process_svg` turns each input path into a `Polygon` (more than 2 points)
  or a `LineString` (2 or fewer points), then loops `inset_polygon`,
  appending each converted candidate to the output until `None` is returned.
* `main` dispatches on the lower-cased file suffix and prints a diagnostic
  for unsupported formats.

Shapely geometries are embedded as a record of the observations the program
makes of them (`is_valid`, `is_empty`, `area`, the geometry kind, the
exterior/linestring coordinates and interior rings), with rational
coordinates.  The external buffer primitive `geometry.buffer(d)` is a
parameter of every definition that calls it: the program never looks inside
it, and its geometric properties (area shrinkage, emptiness of a negative
buffer of a line) enter the theorems as explicit hypotheses.  The unbounded
`while True` loop is embedded with an explicit fuel parameter together with
a halting predicate, so non-termination is expressible.
-/

/-- Geometry kinds the program distinguishes (via `isinstance`). -/
inductive GeomKind where
  | polygon
  | lineString
  | multiPolygon
  | otherGeom
deriving DecidableEq, Repr

/-- A 2D point with rational coordinates. -/
abbrev Point2 : Type := ℚ × ℚ

/-- Shallow embedding of a shapely geometry: exactly the observations
`vectorizer.py` makes of one.  `exterior` is the (closed) exterior-ring
coordinate list of a polygon, `coords` the coordinate list of a linestring,
`interiors` the interior rings (holes) of a polygon. -/
structure Geometry where
  kind : GeomKind
  is_valid : Bool
  is_empty : Bool
  area : ℚ
  exterior : List Point2
  coords : List Point2
  interiors : List (List Point2)
deriving DecidableEq, Repr

/-- The type of the external buffer primitive `geometry.buffer(d)`. -/
abbrev BufferFn : Type := Geometry → ℚ → Geometry

/-- A straight segment of an svgpathtools path: `Line(start, end)`. -/
abbrev SegLine : Type := Point2 × Point2

/-- An svgpathtools `Path` restricted to line segments, as built by
`shapely_to_svgpathtools`. -/
abbrev SVGPathT : Type := List SegLine

/-- The segment list `[Line(c[i], c[i+1]) for i ...]` built from
`zip(coords[:-1], coords[1:])`. -/
def pathOfCoords (coords : List Point2) : SVGPathT :=
  coords.zip coords.tail

/-- `shapely_to_svgpathtools(geometry)`: a polygon contributes the segments
of its exterior ring, a linestring those of its coordinate list, anything
else gives `None`. -/
def shapely_to_svgpathtools (geometry : Geometry) : Option SVGPathT :=
  match geometry.kind with
  | .polygon => some (pathOfCoords geometry.exterior)
  | .lineString => some (pathOfCoords geometry.coords)
  | _ => none

/-- Python truthiness of `processed_path` in `process_svg`: `None` and the
empty path are falsy. -/
def pathTruthy : Option SVGPathT → Bool
  | none => false
  | some p => !p.isEmpty

/-- `inset_polygon(polygon, offset)`: `None` when the input is invalid or
empty; otherwise the candidate `polygon.buffer(-offset)`, unless it is empty
or has non-positive area. -/
def inset_polygon (buffer : BufferFn) (polygon : Geometry) (offset : ℚ) :
    Option Geometry :=
  if polygon.is_valid = false ∨ polygon.is_empty = true then
    none
  else if (buffer polygon (-offset)).is_empty = true ∨
      (buffer polygon (-offset)).area ≤ 0 then
    none
  else
    some (buffer polygon (-offset))

/-- The sequence of geometries accepted by the `while True` loop of
`process_svg` (the spec's RingSequence), with explicit fuel for the
unbounded loop. -/
def ringSeq (buffer : BufferFn) (offset : ℚ) : Nat → Geometry → List Geometry
  | 0, _ => []
  | n + 1, shape =>
    match inset_polygon buffer shape offset with
    | none => []
    | some s => s :: ringSeq buffer offset n s

/-- The svgpathtools paths appended by the loop of `process_svg` for one
shape: each accepted geometry is converted and appended when truthy, and
becomes the current shape. -/
def processShapeLoop (buffer : BufferFn) (offset : ℚ) :
    Nat → Geometry → List SVGPathT
  | 0, _ => []
  | n + 1, shape =>
    match inset_polygon buffer shape offset with
    | none => []
    | some s =>
      match shapely_to_svgpathtools s with
      | some p =>
        if p ≠ [] then p :: processShapeLoop buffer offset n s
        else processShapeLoop buffer offset n s
      | none => processShapeLoop buffer offset n s

/-- The loop for one shape reaches its `break` within `n` further
iterations. -/
def haltsWithin (buffer : BufferFn) (offset : ℚ) : Nat → Geometry → Bool
  | 0, shape => (inset_polygon buffer shape offset).isNone
  | n + 1, shape =>
    match inset_polygon buffer shape offset with
    | none => true
    | some s => haltsWithin buffer offset n s

/-- An axis-aligned rectangle with corners `(x1, y1)` and `(x2, y2)` as a
shapely polygon (closed exterior ring, no holes). -/
def mkRect (x1 y1 x2 y2 : ℚ) : Geometry where
  kind := .polygon
  is_valid := true
  is_empty := false
  area := (x2 - x1) * (y2 - y1)
  exterior := [(x1, y1), (x2, y1), (x2, y2), (x1, y2), (x1, y1)]
  coords := []
  interiors := []

/-- The empty geometry returned by a buffer call that erases its input. -/
def emptyGeom : Geometry where
  kind := .polygon
  is_valid := true
  is_empty := true
  area := 0
  exterior := []
  coords := []
  interiors := []

/-- The external buffer primitive as it behaves on axis-aligned rectangles:
`buffer(d)` dilates every side by `d` (so a negative `d` offsets inward),
and the result is empty once the rectangle degenerates.  On every other
geometry it returns the empty geometry (in particular a negative buffer of
a linestring is empty). -/
def rectBuffer : BufferFn := fun g d =>
  match g.exterior with
  | [(x1, y1), _, (x2, y2), _, _] =>
    if x1 - d < x2 + d ∧ y1 - d < y2 + d then
      mkRect (x1 - d) (y1 - d) (x2 + d) (y2 + d)
    else
      emptyGeom
  | _ => emptyGeom

/-- Characterization of a successful `inset_polygon` call: the input must be
valid and non-empty, and the returned geometry is exactly the buffer output,
which must be non-empty with strictly positive area.  The candidate's own
validity is not constrained. -/
theorem inset_polygon_eq_some_iff (buffer : BufferFn) (g : Geometry)
    (offset : ℚ) (s : Geometry) :
    inset_polygon buffer g offset = some s ↔
      g.is_valid = true ∧ g.is_empty = false ∧
      s = buffer g (-offset) ∧ s.is_empty = false ∧ 0 < s.area := by
  unfold inset_polygon
  split_ifs with h1 h2
  · constructor
    · intro h; exact absurd h (by simp)
    · rintro ⟨hv, he, -, -, -⟩
      rcases h1 with h | h
      · rw [hv] at h; exact absurd h (by simp)
      · rw [he] at h; exact absurd h (by simp)
  · constructor
    · intro h; exact absurd h (by simp)
    · rintro ⟨-, -, rfl, he, ha⟩
      rcases h2 with h | h
      · rw [he] at h; exact absurd h (by simp)
      · linarith
  · push_neg at h1 h2
    constructor
    · intro h
      rw [Option.some.injEq] at h
      subst h
      exact ⟨Bool.eq_true_of_not_eq_false h1.1, Bool.eq_false_of_not_eq_true h1.2,
        rfl, Bool.eq_false_of_not_eq_true h2.1, by linarith [h2.2]⟩
    · rintro ⟨-, -, rfl, -, -⟩; rfl

/-- An invalid or empty current shape terminates the loop at once. -/
theorem inset_polygon_eq_none_of_not_ok (buffer : BufferFn) (g : Geometry)
    (offset : ℚ) (h : g.is_valid = false ∨ g.is_empty = true) :
    inset_polygon buffer g offset = none := by
  unfold inset_polygon
  rw [if_pos h]

/-- Unfolding the ring sequence on an accepted candidate. -/
theorem ringSeq_succ_some (buffer : BufferFn) (offset : ℚ) (n : Nat)
    (shape s : Geometry) (h : inset_polygon buffer shape offset = some s) :
    ringSeq buffer offset (n + 1) shape = s :: ringSeq buffer offset n s := by
  simp [ringSeq, h]

/-- Unfolding the ring sequence on a rejected candidate. -/
theorem ringSeq_succ_none (buffer : BufferFn) (offset : ℚ) (n : Nat)
    (shape : Geometry) (h : inset_polygon buffer shape offset = none) :
    ringSeq buffer offset (n + 1) shape = [] := by
  simp [ringSeq, h]

/-- The head of a ring sequence is always an accepted inset of the starting
shape. -/
theorem ringSeq_head_accepted (buffer : BufferFn) (offset : ℚ) (n : Nat)
    (shape t : Geometry)
    (h : (ringSeq buffer offset n shape).head? = some t) :
    inset_polygon buffer shape offset = some t := by
  match n with
  | 0 => simp [ringSeq] at h
  | n + 1 =>
    cases hs : inset_polygon buffer shape offset with
    | none => rw [ringSeq_succ_none buffer offset n shape hs] at h; simp at h
    | some s =>
      rw [ringSeq_succ_some buffer offset n shape s hs] at h
      simp at h
      exact congrArg some h

/-- A self-intersecting (invalid) polygon with positive area, standing for
an invalid output of the external offset primitive. -/
def invalidCandidate : Geometry where
  kind := .polygon
  is_valid := false
  is_empty := false
  area := 9
  exterior := [(0, 0), (4, 0), (1, 3), (3, -1), (0, 0)]
  coords := []
  interiors := []

/-- An offset primitive (mock, in the sense of the injectable offset
capability of the design notes) that returns an invalid positive-area
candidate. -/
def invalidBuffer : BufferFn := fun _ _ => invalidCandidate

/-- Claim C1, counterexample: an invalid candidate with positive area is
accepted by `inset_polygon`, enters the ring sequence and is appended to
the output paths; only the next iteration then stops the loop.  The claim
says such a candidate is never appended and stops the loop at once. -/
theorem claim_C1_counterexample :
    invalidCandidate.is_valid = false ∧
    inset_polygon invalidBuffer (mkRect 0 0 10 10) 1 = some invalidCandidate ∧
    ringSeq invalidBuffer 1 5 (mkRect 0 0 10 10) = [invalidCandidate] ∧
    processShapeLoop invalidBuffer 1 5 (mkRect 0 0 10 10) =
      [pathOfCoords invalidCandidate.exterior] := by
  refine ⟨rfl, ?_, ?_, ?_⟩
  · norm_num [inset_polygon, invalidBuffer, invalidCandidate, mkRect]
  · norm_num [inset_polygon, ringSeq, invalidBuffer, invalidCandidate, mkRect]
  · norm_num [inset_polygon, ringSeq, processShapeLoop, invalidBuffer,
      invalidCandidate, mkRect, shapely_to_svgpathtools, pathOfCoords,
      List.cons_ne_nil]

/-- Claim C1, amended: a candidate is accepted (appended to the ring
sequence and made the current shape) iff the current shape is valid and
non-empty and the candidate is non-empty with strictly positive area; the
candidate's validity is not checked at acceptance.  An accepted invalid
candidate instead terminates the loop at the start of the next iteration,
after having contributed one ring. -/
theorem claim_C1_amended_acceptance (buffer : BufferFn) (shape : Geometry)
    (offset : ℚ) (s : Geometry) :
    (inset_polygon buffer shape offset = some s ↔
      shape.is_valid = true ∧ shape.is_empty = false ∧
      s = buffer shape (-offset) ∧ s.is_empty = false ∧ 0 < s.area) ∧
    (inset_polygon buffer shape offset = some s → s.is_valid = false →
      ∀ n : Nat, ringSeq buffer offset (n + 1) shape = [s]) := by
  refine ⟨inset_polygon_eq_some_iff buffer shape offset s, ?_⟩
  intro h hinv n
  rw [ringSeq_succ_some buffer offset n shape s h]
  match n with
  | 0 => rfl
  | n + 1 =>
    rw [ringSeq_succ_none buffer offset n s
      (inset_polygon_eq_none_of_not_ok buffer s offset (Or.inl hinv))]

/-- Claim C1, witness: the amended acceptance characterization evaluated on
the invalid-candidate mock buffer and the 10 by 10 square. -/
theorem claim_C1_amended_witness :
    inset_polygon invalidBuffer (mkRect 0 0 10 10) 1 = some invalidCandidate ∧
    ringSeq invalidBuffer 1 4 (mkRect 0 0 10 10) = [invalidCandidate] := by
  have h := claim_C1_amended_acceptance invalidBuffer (mkRect 0 0 10 10) 1
    invalidCandidate
  have hacc : inset_polygon invalidBuffer (mkRect 0 0 10 10) 1 =
      some invalidCandidate :=
    h.1.mpr ⟨rfl, rfl, rfl, rfl, by norm_num [invalidCandidate]⟩
  exact ⟨hacc, h.2 hacc rfl 3⟩

/-- The external buffer primitive at dilation distance 0: `buffer(0)`
returns the geometry itself (same validity, emptiness and area). -/
def idBuffer : BufferFn := fun g _ => g

/-- Claim C2, counterexample: with offset 0 nothing is rejected — the loop
accepts the unchanged square over and over, producing a ring per fuel unit,
and never halts. -/
theorem claim_C2_counterexample :
    ringSeq idBuffer 0 3 (mkRect 0 0 10 10) =
      [mkRect 0 0 10 10, mkRect 0 0 10 10, mkRect 0 0 10 10] ∧
    haltsWithin idBuffer 0 5 (mkRect 0 0 10 10) = false := by
  constructor <;>
    norm_num [ringSeq, haltsWithin, inset_polygon, idBuffer, mkRect,
      Option.isNone]

/-- Claim C2, amended: `inset_polygon` performs no precondition check on the
offset; with offset 0 (where the buffer primitive returns the geometry
unchanged) the loop silently treats the run as valid, yields one ring per
fuel unit, and never reaches its exit. -/
theorem claim_C2_amended_no_rejection (n : Nat) :
    ringSeq idBuffer 0 n (mkRect 0 0 10 10) =
      List.replicate n (mkRect 0 0 10 10) ∧
    haltsWithin idBuffer 0 n (mkRect 0 0 10 10) = false := by
  have hsome : inset_polygon idBuffer (mkRect 0 0 10 10) 0 =
      some (mkRect 0 0 10 10) :=
    (inset_polygon_eq_some_iff idBuffer (mkRect 0 0 10 10) 0
      (mkRect 0 0 10 10)).mpr ⟨rfl, rfl, rfl, rfl, by norm_num [mkRect]⟩
  induction n with
  | zero => exact ⟨rfl, by simp [haltsWithin, hsome, Option.isNone]⟩
  | succ n ih =>
    refine ⟨?_, ?_⟩
    · rw [ringSeq_succ_some idBuffer 0 n (mkRect 0 0 10 10)
        (mkRect 0 0 10 10) hsome, ih.1, List.replicate_succ]
    · simp only [haltsWithin, hsome]
      exact ih.2

/-- A buffer primitive that erases every geometry, used to instantiate
oracle hypotheses in witnesses. -/
def constEmptyBuffer : BufferFn := fun _ _ => emptyGeom

/-- A first rejected candidate empties the loop for each of the three
observations of one shape's processing. -/
theorem loop_nil_of_inset_none (buffer : BufferFn) (offset : ℚ)
    (g : Geometry) (hnone : inset_polygon buffer g offset = none) (n : Nat) :
    ringSeq buffer offset n g = [] ∧
    processShapeLoop buffer offset n g = [] ∧
    haltsWithin buffer offset n g = true := by
  match n with
  | 0 => exact ⟨rfl, rfl, by simp [haltsWithin, hnone, Option.isNone]⟩
  | n + 1 =>
    refine ⟨ringSeq_succ_none buffer offset n g hnone, ?_, ?_⟩
    · simp [processShapeLoop, hnone]
    · simp [haltsWithin, hnone]

/-- On a linestring, `inset_polygon` always returns `None` when the
primitive's negative buffer of a linestring is empty. -/
theorem inset_polygon_lineString_none (buffer : BufferFn)
    (hline : ∀ g d, g.kind = GeomKind.lineString → d < 0 →
      (buffer g d).is_empty = true)
    (offset : ℚ) (hoff : 0 < offset) (g : Geometry)
    (hg : g.kind = GeomKind.lineString) :
    inset_polygon buffer g offset = none := by
  by_cases h1 : g.is_valid = false ∨ g.is_empty = true
  · exact inset_polygon_eq_none_of_not_ok buffer g offset h1
  · have hemp := hline g (-offset) hg (by linarith)
    unfold inset_polygon
    rw [if_neg h1, if_pos (Or.inl hemp)]

/-- Claim C3: for every linestring shape (how `process_svg` represents a
path with 2 or fewer points) and every positive offset, the loop produces
no rings and no output paths and halts immediately, given that the external
primitive's negative buffer of a linestring is empty. -/
theorem claim_C3_polyline_noop (buffer : BufferFn)
    (hline : ∀ g d, g.kind = GeomKind.lineString → d < 0 →
      (buffer g d).is_empty = true)
    (offset : ℚ) (hoff : 0 < offset) (g : Geometry)
    (hg : g.kind = GeomKind.lineString) (n : Nat) :
    ringSeq buffer offset n g = [] ∧
    processShapeLoop buffer offset n g = [] ∧
    haltsWithin buffer offset n g = true :=
  loop_nil_of_inset_none buffer offset g
    (inset_polygon_lineString_none buffer hline offset hoff g hg) n

/-- A linestring built from the two points (0,0) and (5,0). -/
def lineTwoPts : Geometry where
  kind := .lineString
  is_valid := true
  is_empty := false
  area := 0
  exterior := []
  coords := [(0, 0), (5, 0)]
  interiors := []

/-- Claim C3, witness: the polyline no-op evaluated at a concrete 2-point
linestring, offset 1 and an erasing buffer primitive. -/
theorem claim_C3_witness :
    ringSeq constEmptyBuffer 1 4 lineTwoPts = [] ∧
    processShapeLoop constEmptyBuffer 1 4 lineTwoPts = [] ∧
    haltsWithin constEmptyBuffer 1 4 lineTwoPts = true :=
  claim_C3_polyline_noop constEmptyBuffer (fun _ _ _ _ => rfl) 1
    (by norm_num) lineTwoPts rfl 4

/-- Claim C4: when the external primitive's strictly negative buffer
strictly shrinks area whenever its result is non-empty, every ring sequence
the loop returns has strictly decreasing areas between consecutive rings. -/
theorem claim_C4_monotonic_shrinkage (buffer : BufferFn) (offset : ℚ)
    (hoff : 0 < offset)
    (hshrink : ∀ g d, d < 0 → (buffer g d).is_empty = false →
      (buffer g d).area < g.area)
    (n : Nat) (shape : Geometry) :
    ((ringSeq buffer offset n shape).map Geometry.area).Chain'
      (fun a b => b < a) := by
  have hstep : ∀ g s : Geometry, inset_polygon buffer g offset = some s →
      s.area < g.area := by
    intro g s h
    obtain ⟨-, -, rfl, he, -⟩ :=
      (inset_polygon_eq_some_iff buffer g offset s).mp h
    exact hshrink g (-offset) (by linarith) he
  induction n generalizing shape with
  | zero => simp [ringSeq]
  | succ n ih =>
    cases h : inset_polygon buffer shape offset with
    | none => rw [ringSeq_succ_none buffer offset n shape h]; simp
    | some s =>
      rw [ringSeq_succ_some buffer offset n shape s h, List.map_cons,
        List.chain'_cons']
      refine ⟨?_, ih s⟩
      intro b hb
      rw [List.head?_map] at hb
      cases hh : (ringSeq buffer offset n s).head? with
      | none => rw [hh] at hb; simp at hb
      | some t =>
        rw [hh] at hb
        simp at hb
        subst hb
        exact hstep s t (ringSeq_head_accepted buffer offset n s t hh)

/-- A buffer primitive that dilates by changing the area by the requested
(signed) distance, keeping everything else. -/
def decBuffer : BufferFn := fun g d =>
  { g with area := g.area + d }

/-- Claim C4, witness: monotonic shrinkage evaluated on the area-decrement
buffer, offset 1 and the 10 by 10 square. -/
theorem claim_C4_witness :
    ((ringSeq decBuffer 1 3 (mkRect 0 0 10 10)).map Geometry.area).Chain'
      (fun a b => b < a) :=
  claim_C4_monotonic_shrinkage decBuffer 1 (by norm_num)
    (by intro g d hd he; simp only [decBuffer]; linarith) 3 (mkRect 0 0 10 10)

/-- Every shape whose area is at most `k` times the per-step decrement is
done within `k` iterations. -/
theorem haltsWithin_of_area_le (buffer : BufferFn) (offset : ℚ) (δ : ℚ)
    (hδ : 0 < δ)
    (hdec : ∀ g s : Geometry, inset_polygon buffer g offset = some s →
      s.area ≤ g.area - δ) :
    ∀ (k : Nat) (g : Geometry), g.area ≤ k * δ →
      haltsWithin buffer offset k g = true := by
  intro k
  induction k with
  | zero =>
    intro g hg
    cases h : inset_polygon buffer g offset with
    | none => simp [haltsWithin, h, Option.isNone]
    | some s =>
      obtain ⟨-, -, -, -, hpos⟩ :=
        (inset_polygon_eq_some_iff buffer g offset s).mp h
      have := hdec g s h
      norm_num at hg
      linarith
  | succ k ih =>
    intro g hg
    cases h : inset_polygon buffer g offset with
    | none => simp [haltsWithin, h]
    | some s =>
      simp only [haltsWithin, h]
      refine ih s ?_
      have := hdec g s h
      have hc : ((k : ℚ) + 1) * δ = k * δ + δ := by ring
      push_cast at hg
      linarith [hg, hc]

/-- Claim C5: for every shape and positive offset, if each accepted step
decreases the area by at least a fixed positive amount δ (the
non-vanishing lower bound the spec derives from offset distance and
perimeter), the inset loop halts after finitely many iterations. -/
theorem claim_C5_termination (buffer : BufferFn) (offset : ℚ)
    (_hoff : 0 < offset) (shape : Geometry) (δ : ℚ) (hδ : 0 < δ)
    (hdec : ∀ g s : Geometry, inset_polygon buffer g offset = some s →
      s.area ≤ g.area - δ) :
    ∃ n : Nat, haltsWithin buffer offset n shape = true := by
  obtain ⟨n, hn⟩ := exists_nat_ge (shape.area / δ)
  refine ⟨n, haltsWithin_of_area_le buffer offset δ hδ hdec n shape ?_⟩
  rw [div_le_iff₀ hδ] at hn
  linarith

/-- Claim C5, witness: termination evaluated on the area-decrement buffer,
offset 1, decrement 1, starting from the 10 by 10 square. -/
theorem claim_C5_witness :
    ∃ n : Nat, haltsWithin decBuffer 1 n (mkRect 0 0 10 10) = true :=
  claim_C5_termination decBuffer 1 (by norm_num) (mkRect 0 0 10 10) 1
    (by norm_num)
    (by
      intro g s h
      obtain ⟨-, -, rfl, -, -⟩ :=
        (inset_polygon_eq_some_iff decBuffer g 1 s).mp h
      simp only [decBuffer]
      linarith)

/-- Claim C6: for the square with corners (0,0),(10,0),(10,10),(0,10) and
offset 1, the inset loop returns exactly the four square rings spanning
(1,1)-(9,9), (2,2)-(8,8), (3,3)-(7,7) and (4,4)-(6,6), of areas 64, 36, 16
and 4 (sides 8, 6, 4, 2); the loop halts after these four rings because the
next candidate has non-positive area. -/
theorem claim_C6_square_four_rings :
    ringSeq rectBuffer 1 10 (mkRect 0 0 10 10) =
      [mkRect 1 1 9 9, mkRect 2 2 8 8, mkRect 3 3 7 7, mkRect 4 4 6 6] ∧
    (ringSeq rectBuffer 1 10 (mkRect 0 0 10 10)).map Geometry.area =
      [64, 36, 16, 4] ∧
    haltsWithin rectBuffer 1 4 (mkRect 0 0 10 10) = true ∧
    (rectBuffer (mkRect 4 4 6 6) (-1)).area ≤ 0 := by
  norm_num [ringSeq, inset_polygon, rectBuffer, mkRect, emptyGeom, haltsWithin]

/-- Shoelace sum of consecutive cross products along a coordinate list. -/
def shoelace : List Point2 → ℚ
  | (x1, y1) :: (x2, y2) :: rest => (x1 * y2 - x2 * y1) + shoelace ((x2, y2) :: rest)
  | _ => 0

/-- Close a coordinate ring by repeating the first point at the end, as
shapely stores exterior rings. -/
def closeRing (points : List Point2) : List Point2 :=
  match points with
  | [] => []
  | p :: _ => points ++ [p]

/-- The enclosed area of a ring of points (absolute shoelace over the
closed ring, halved). -/
def ringArea (points : List Point2) : ℚ :=
  |shoelace (closeRing points)| / 2

/-- `Polygon(points)`: a polygon geometry built from a point list.  The
topological-validity observation is an external computation of the geometry
library, passed in as an oracle. -/
def polygonOf (validOracle : List Point2 → Bool) (points : List Point2) :
    Geometry where
  kind := .polygon
  is_valid := validOracle points
  is_empty := points.isEmpty
  area := ringArea points
  exterior := closeRing points
  coords := []
  interiors := []

/-- `LineString(points)`: a linestring geometry built from a point list. -/
def lineStringOf (points : List Point2) : Geometry where
  kind := .lineString
  is_valid := true
  is_empty := points.isEmpty
  area := 0
  exterior := []
  coords := points
  interiors := []

/-- The only exception the embedded pipeline can raise: the geometry
library rejects a `LineString` built from a single point. -/
inductive PyError where
  | geosException
deriving DecidableEq, Repr

/-- Line 41 of the source: `Polygon(points) if len(points) > 2 else
LineString(points)`.  A one-point list makes the `LineString` constructor
raise. -/
def mkShape (validOracle : List Point2 → Bool) (points : List Point2) :
    Except PyError Geometry :=
  if points.length > 2 then .ok (polygonOf validOracle points)
  else if points.length = 1 then .error .geosException
  else .ok (lineStringOf points)

/-- `process_svg` restricted to its per-shape core: each input path's
segment-start points become a shape, the inset loop runs on it, and all
produced paths are concatenated.  An exception anywhere aborts the whole
run before any output is written. -/
def process_svg (buffer : BufferFn) (validOracle : List Point2 → Bool)
    (offset : ℚ) (fuel : Nat) :
    List (List Point2) → Except PyError (List SVGPathT)
  | [] => .ok []
  | pts :: rest =>
    match mkShape validOracle pts with
    | .error e => .error e
    | .ok shape =>
      match process_svg buffer validOracle offset fuel rest with
      | .error e => .error e
      | .ok tail => .ok (processShapeLoop buffer offset fuel shape ++ tail)

/-- The validity oracle that holds on the concrete simple inputs used
below. -/
def allValid : List Point2 → Bool := fun _ => true

/-- The segment-start points of the 10 by 10 square test path. -/
def squarePts : List Point2 := [(0, 0), (10, 0), (10, 10), (0, 10)]

/-- Claim C7, counterexample: a 2-point shape in a batch raises nothing and
is silently consumed as a linestring while the square is processed — no
`InvalidShapeError` exists; and a 1-point shape makes the `LineString`
constructor raise, aborting the WHOLE batch, so the square's rings are
lost, contradicting shape-level recovery. -/
theorem claim_C7_counterexample :
    mkShape allValid [(0, 0), (1, 0)] = .ok (lineStringOf [(0, 0), (1, 0)]) ∧
    process_svg rectBuffer allValid 1 10 [[(0, 0), (1, 0)], squarePts] =
      .ok [pathOfCoords (mkRect 1 1 9 9).exterior,
        pathOfCoords (mkRect 2 2 8 8).exterior,
        pathOfCoords (mkRect 3 3 7 7).exterior,
        pathOfCoords (mkRect 4 4 6 6).exterior] ∧
    process_svg rectBuffer allValid 1 10 [[(5, 5)], squarePts] =
      .error .geosException := by
  refine ⟨rfl, ?_, rfl⟩
  norm_num [process_svg, mkShape, processShapeLoop, inset_polygon,
    shapely_to_svgpathtools, pathOfCoords, rectBuffer, mkRect, emptyGeom,
    allValid, squarePts, polygonOf, lineStringOf, closeRing, ringArea,
    shoelace, List.cons_ne_nil]

/-- Claim C7, amended: no `InvalidShapeError` exists.  A 2-point path is
treated as a linestring: no error is signaled and the batch result is
exactly that of the remaining shapes; a 1-point path raises an exception
that aborts the entire batch (no partial results), for any remaining
shapes. -/
theorem claim_C7_amended_no_shape_error (buffer : BufferFn)
    (validOracle : List Point2 → Bool) (offset : ℚ) (hoff : 0 < offset)
    (hline : ∀ g d, g.kind = GeomKind.lineString → d < 0 →
      (buffer g d).is_empty = true)
    (fuel : Nat) (pts : List Point2) (hlen : pts.length = 2)
    (rest : List (List Point2)) :
    process_svg buffer validOracle offset fuel (pts :: rest) =
      process_svg buffer validOracle offset fuel rest ∧
    ∀ p : Point2, process_svg buffer validOracle offset fuel ([p] :: rest) =
      .error .geosException := by
  constructor
  · have hshape : mkShape validOracle pts = .ok (lineStringOf pts) := by
      simp [mkShape, hlen]
    have hloop : processShapeLoop buffer offset fuel (lineStringOf pts) = [] :=
      (loop_nil_of_inset_none buffer offset (lineStringOf pts)
        (inset_polygon_lineString_none buffer hline offset hoff
          (lineStringOf pts) rfl) fuel).2.1
    cases hrest : process_svg buffer validOracle offset fuel rest with
    | error e => simp [process_svg, hshape, hrest]
    | ok tail => simp [process_svg, hshape, hrest, hloop]
  · intro p
    simp [process_svg, mkShape]

/-- Claim C7, witness: the amended batch behavior evaluated on concrete
batches containing a 2-point and a 1-point path next to the square. -/
theorem claim_C7_amended_witness :
    process_svg constEmptyBuffer allValid 1 3 [[(0, 0), (1, 0)], squarePts] =
      process_svg constEmptyBuffer allValid 1 3 [squarePts] ∧
    process_svg constEmptyBuffer allValid 1 3 [[(5, 5)], squarePts] =
      .error .geosException := by
  have h := claim_C7_amended_no_shape_error constEmptyBuffer allValid 1
    (by norm_num) (fun _ _ _ _ => rfl) 3 [(0, 0), (1, 0)] rfl [squarePts]
  exact ⟨h.1, h.2 (5, 5)⟩

/-- What `main` does after parsing arguments, as a function of the
lower-cased input-file suffix. -/
inductive RunAction where
  | runProcessSvg
  | runProcessRaster
  | printUnsupported
deriving DecidableEq, Repr

/-- Observable outcome of one `main` run: the selected action, the process
exit code, and whether an output file is written. -/
structure MainResult where
  action : RunAction
  exitCode : Nat
  wroteOutput : Bool
deriving DecidableEq, Repr

/-- Lines 93-98 of the source: dispatch on the lower-cased suffix.  The
unsupported branch only prints; `main` then returns normally, so the
interpreter exits with code 0. -/
def main_dispatch (suffixLower : String) : MainResult :=
  if suffixLower = ".svg" then
    ⟨.runProcessSvg, 0, true⟩
  else if suffixLower = ".png" ∨ suffixLower = ".jpeg" ∨
      suffixLower = ".jpg" then
    ⟨.runProcessRaster, 0, true⟩
  else
    ⟨.printUnsupported, 0, false⟩

/-- Claim C8, counterexample: for an unsupported suffix the program prints
the diagnostic and writes no output, but the exit code is 0, not
non-zero. -/
theorem claim_C8_counterexample :
    main_dispatch ".txt" =
      ⟨RunAction.printUnsupported, 0, false⟩ ∧
    (main_dispatch ".txt").exitCode = 0 := by
  constructor <;> rfl

/-- Claim C8, amended: for every suffix that is neither `.svg` nor a
recognized raster suffix, `main` prints the diagnostic and writes no
output, but returns normally, so the run exits with code 0 (not
non-zero). -/
theorem claim_C8_amended_exit_zero (s : String) (h1 : s ≠ ".svg")
    (h2 : s ≠ ".png") (h3 : s ≠ ".jpeg") (h4 : s ≠ ".jpg") :
    main_dispatch s = ⟨RunAction.printUnsupported, 0, false⟩ := by
  unfold main_dispatch
  rw [if_neg h1, if_neg (by simp [h2, h3, h4])]

/-- Claim C8, witness: the amended dispatch behavior evaluated at the
suffix `.txt`. -/
theorem claim_C8_amended_witness :
    main_dispatch ".txt" = ⟨RunAction.printUnsupported, 0, false⟩ :=
  claim_C8_amended_exit_zero ".txt" (by decide) (by decide) (by decide)
    (by decide)

/-- Claim C9: for every polygon, only the exterior ring is serialized — the
converted path is built from the exterior coordinates alone and does not
change when the interior rings (holes) change — while the accepted
candidate carried into the next iteration is the unmodified buffer output,
holes included. -/
theorem claim_C9_holes_discarded (g : Geometry)
    (hkind : g.kind = GeomKind.polygon) :
    shapely_to_svgpathtools g = some (pathOfCoords g.exterior) ∧
    (∀ interiorRings : List (List Point2),
      shapely_to_svgpathtools { g with interiors := interiorRings } =
        shapely_to_svgpathtools g) ∧
    (∀ (buffer : BufferFn) (offset : ℚ) (n : Nat) (s : Geometry),
      inset_polygon buffer g offset = some s →
        ringSeq buffer offset (n + 1) g = s :: ringSeq buffer offset n s ∧
        s = buffer g (-offset)) := by
  refine ⟨?_, ?_, ?_⟩
  · simp [shapely_to_svgpathtools, hkind]
  · intro interiorRings
    simp [shapely_to_svgpathtools, hkind]
  · intro buffer offset n s h
    obtain ⟨-, -, hs, -, -⟩ := (inset_polygon_eq_some_iff buffer g offset s).mp h
    exact ⟨ringSeq_succ_some buffer offset n g s h, hs⟩

/-- The 10 by 10 square with a square hole from (4,4) to (6,6). -/
def squareWithHole : Geometry :=
  { mkRect 0 0 10 10 with interiors := [[(4, 4), (6, 4), (6, 6), (4, 6), (4, 4)]] }

/-- Claim C9, witness: hole discarding evaluated on a square carrying one
interior ring. -/
theorem claim_C9_witness :
    shapely_to_svgpathtools squareWithHole =
      some (pathOfCoords squareWithHole.exterior) ∧
    shapely_to_svgpathtools { squareWithHole with interiors := [] } =
      shapely_to_svgpathtools squareWithHole :=
  ⟨(claim_C9_holes_discarded squareWithHole rfl).1,
    (claim_C9_holes_discarded squareWithHole rfl).2.1 []⟩

/-- Claim C10: a multipolygon buffer output that is non-empty with positive
total area (an inward offset that split the shape) is accepted by
`inset_polygon` and becomes the current shape of the next iteration, but
`shapely_to_svgpathtools` returns `None` on it, so no path is appended for
that iteration. -/
theorem claim_C10_multipolygon_skipped (buffer : BufferFn) (offset : ℚ)
    (g m : Geometry) (hbuf : buffer g (-offset) = m)
    (hkind : m.kind = GeomKind.multiPolygon) (hvalid : g.is_valid = true)
    (hne : g.is_empty = false) (hme : m.is_empty = false)
    (harea : 0 < m.area) (n : Nat) :
    inset_polygon buffer g offset = some m ∧
    shapely_to_svgpathtools m = none ∧
    processShapeLoop buffer offset (n + 1) g =
      processShapeLoop buffer offset n m ∧
    ringSeq buffer offset (n + 1) g = m :: ringSeq buffer offset n m := by
  have hacc : inset_polygon buffer g offset = some m :=
    (inset_polygon_eq_some_iff buffer g offset m).mpr
      ⟨hvalid, hne, hbuf.symm, hme, harea⟩
  have hconv : shapely_to_svgpathtools m = none := by
    simp [shapely_to_svgpathtools, hkind]
  refine ⟨hacc, hconv, ?_, ringSeq_succ_some buffer offset n g m hacc⟩
  simp [processShapeLoop, hacc, hconv]

/-- A multipolygon with two components of total area 20, standing for a
split inward offset. -/
def splitGeom : Geometry where
  kind := .multiPolygon
  is_valid := true
  is_empty := false
  area := 20
  exterior := []
  coords := []
  interiors := []

/-- A buffer primitive whose inward offset splits every shape into the
two-component multipolygon. -/
def splitBuffer : BufferFn := fun _ _ => splitGeom

/-- Claim C10, witness: the multipolygon acceptance evaluated on the
splitting buffer and the 10 by 10 square. -/
theorem claim_C10_witness :
    inset_polygon splitBuffer (mkRect 0 0 10 10) 1 = some splitGeom ∧
    shapely_to_svgpathtools splitGeom = none ∧
    processShapeLoop splitBuffer 1 3 (mkRect 0 0 10 10) =
      processShapeLoop splitBuffer 1 2 splitGeom ∧
    ringSeq splitBuffer 1 3 (mkRect 0 0 10 10) =
      splitGeom :: ringSeq splitBuffer 1 2 splitGeom :=
  claim_C10_multipolygon_skipped splitBuffer 1 (mkRect 0 0 10 10) splitGeom
    rfl rfl rfl rfl rfl (by norm_num [splitGeom]) 2
